import Mathlib

/-!
Verification of the OTDR cut-location prediction core of the OkalFTTH
repository.  The repository contains two near-duplicate variants of the
predictor: `predict_cut_location` in `src/cpapp.py` (overread constant 1.25,
slack span 400 m, slack loop 15 m) and `predict_cut_location` in
`src/unnamed/part_000` ("Cut Prediction7.py"; overread 1.05, span 500 m,
loop 25 m).

Modelling choices:

* Distances, coordinates and ratios are rationals (`ℚ`): exact arithmetic in
  place of Python floats.  Python float floor-division `//` becomes
  `Int.floor` of the rational quotient, cast back to `ℚ`.
* A pandas DataFrame of segment poles is modelled as a `List PoleEntry` in
  chain order.  With the default RangeIndex the label produced by
  `iterrows()` equals the position, so the source's `idx + 1 <
  len(segment_poles)` test and `segment_poles.iloc[idx + 1]` select the
  positional successor, which is how the recursion below walks the list.
* The poles table is a `List PoleRow`; the source's
  `poles_data.loc[mask, [Latitude, Longitude]].values[0]` takes the first
  matching row and raises `IndexError` (a Python `LookupError`) when no row
  matches; this is modelled by `lookupPole` returning an `Option`.
* Python exceptions become `Except PredictError`; each constructor of
  `PredictError` names one concrete raise site of the source.
* The external geodesy call
  `geodesic(kilometers=dws / 1000).destination(start, bearing)` (geopy,
  composed with `calculate_initial_bearing`) is abstracted as a parameter
  `proj : Coords → Coords → ℚ → Coords` taking the start coordinates, the
  next-pole coordinates and the within-span distance in metres.
  `calculate_initial_bearing` itself is in the source and is embedded
  separately over `ℝ` further below.
-/

/-- Geographic coordinates: (latitude, longitude) in decimal degrees. -/
abbrev Coords : Type := ℚ × ℚ

/-- One row of a segment's pole chain: the columns `Pole_ID` and
`Distance (m)` used by `predict_cut_location`. -/
structure PoleEntry where
  pole_id : ℕ
  dist : ℚ
deriving DecidableEq

/-- One row of the poles table: the columns `Pole_ID`, `Latitude`,
`Longitude` used by the coordinate lookups. -/
structure PoleRow where
  pole_id : ℕ
  latitude : ℚ
  longitude : ℚ
deriving DecidableEq

/-- The failure kinds of the prediction pipeline.  Each constructor stands
for one concrete raise site in the source. -/
inductive PredictError where
  /-- Python ValueError with message Invalid Segment_ID, raised by
  `validate_segment` when the filtered segment data is empty. -/
  | invalidSegment
  /-- Python IndexError (a subclass of LookupError) raised by `.values[0]`
  in `predict_cut_location` when a pole id has no row in the poles table. -/
  | lookupError
  /-- Python ValueError with message OTDR distance exceeds total distance of
  the segment, raised when the traversal loop exhausts all entries. -/
  | outOfRange
deriving DecidableEq

/-- First row of `poles_data` matching the pole id, projected to
(latitude, longitude); `none` models the IndexError of `.values[0]` on an
empty selection. -/
def lookupPole (poles_data : List PoleRow) (pid : ℕ) : Option Coords :=
  (poles_data.find? (fun row => row.pole_id == pid)).map
    (fun row => (row.latitude, row.longitude))

/-- One row of the segments table as seen by `validate_segment`:
a `Segment_ID` column plus the pole-chain payload. -/
structure SegRow where
  segment_id : ℕ
  pole_id : ℕ
  dist : ℚ
deriving DecidableEq

/-- Embedding of `validate_segment` (identical in both variants): filter the
segment table by `Segment_ID` and raise ValueError Invalid Segment_ID when
the result is empty. -/
def validate_segment (segment_data : List SegRow) (segment_id : ℕ) :
    Except PredictError (List SegRow) :=
  let data := segment_data.filter (fun row => row.segment_id == segment_id)
  if data.isEmpty then .error .invalidSegment else .ok data

/-- Loop of `predict_cut_location` from `src/cpapp.py` (constants 400 and
15), walking the chain with the running `accumulated_distance`. -/
def predictLoopCp (proj : Coords → Coords → ℚ → Coords)
    (poles_data : List PoleRow) (adjusted_otdr_distance slackFactor : ℚ) :
    ℚ → List PoleEntry → Except PredictError Coords
  | _, [] => .error .outOfRange
  | accumulated_distance, entry :: rest =>
    let pole_distance := entry.dist
    let cable_adjustment :=
      (⌊(accumulated_distance + pole_distance) / 400⌋ : ℚ) * 15 * slackFactor
    let effective_distance := adjusted_otdr_distance - cable_adjustment
    if accumulated_distance + pole_distance ≥ effective_distance then
      let distance_within_segment := effective_distance - accumulated_distance
      match lookupPole poles_data entry.pole_id with
      | none => .error .lookupError
      | some start_coords =>
        match rest with
        | [] => .ok start_coords
        | next :: _ =>
          match lookupPole poles_data next.pole_id with
          | none => .error .lookupError
          | some end_coords =>
            if distance_within_segment = 0 then .ok start_coords
            else .ok (proj start_coords end_coords distance_within_segment)
    else
      predictLoopCp proj poles_data adjusted_otdr_distance slackFactor
        (accumulated_distance + pole_distance) rest

/-- Embedding of `predict_cut_location` from `src/cpapp.py`:
`adjusted_otdr_distance = distance_otdr * 1.25`, then the traversal loop. -/
def predict_cut_locationCp (proj : Coords → Coords → ℚ → Coords)
    (segment_poles : List PoleEntry) (poles_data : List PoleRow)
    (distance_otdr slackFactor : ℚ) : Except PredictError Coords :=
  predictLoopCp proj poles_data (distance_otdr * 1.25) slackFactor 0 segment_poles

/-- Loop of `predict_cut_location` from `src/unnamed/part_000`
(Cut Prediction7.py; constants 500 and 25). -/
def predictLoopPart (proj : Coords → Coords → ℚ → Coords)
    (poles_data : List PoleRow) (adjusted_otdr_distance slackFactor : ℚ) :
    ℚ → List PoleEntry → Except PredictError Coords
  | _, [] => .error .outOfRange
  | accumulated_distance, entry :: rest =>
    let pole_distance := entry.dist
    let cable_adjustment :=
      (⌊(accumulated_distance + pole_distance) / 500⌋ : ℚ) * 25 * slackFactor
    let effective_distance := adjusted_otdr_distance - cable_adjustment
    if accumulated_distance + pole_distance ≥ effective_distance then
      let distance_within_segment := effective_distance - accumulated_distance
      match lookupPole poles_data entry.pole_id with
      | none => .error .lookupError
      | some start_coords =>
        match rest with
        | [] => .ok start_coords
        | next :: _ =>
          match lookupPole poles_data next.pole_id with
          | none => .error .lookupError
          | some end_coords =>
            if distance_within_segment = 0 then .ok start_coords
            else .ok (proj start_coords end_coords distance_within_segment)
    else
      predictLoopPart proj poles_data adjusted_otdr_distance slackFactor
        (accumulated_distance + pole_distance) rest

/-- Embedding of `predict_cut_location` from `src/unnamed/part_000`:
`adjusted_otdr_distance = distance_otdr * 1.05`, then the traversal loop. -/
def predict_cut_locationPart (proj : Coords → Coords → ℚ → Coords)
    (segment_poles : List PoleEntry) (poles_data : List PoleRow)
    (distance_otdr slackFactor : ℚ) : Except PredictError Coords :=
  predictLoopPart proj poles_data (distance_otdr * 1.05) slackFactor 0 segment_poles

/-- The three deployment calibration constants hard-coded (differently) in
the two variants: the OTDR overread multiplier, the slack span interval in
metres and the per-loop slack length in metres. -/
structure GeoCfg where
  overread : ℚ
  spanLen : ℚ
  loopLen : ℚ

/-- Constants of the `src/cpapp.py` variant. -/
def cfgCp : GeoCfg := ⟨1.25, 400, 15⟩

/-- Constants of the `src/unnamed/part_000` variant. -/
def cfgPart : GeoCfg := ⟨1.05, 500, 25⟩

@[simp] theorem cfgCp_overread : cfgCp.overread = 1.25 := rfl

@[simp] theorem cfgCp_spanLen : cfgCp.spanLen = 400 := rfl

@[simp] theorem cfgCp_loopLen : cfgCp.loopLen = 15 := rfl

@[simp] theorem cfgPart_overread : cfgPart.overread = 1.05 := rfl

@[simp] theorem cfgPart_spanLen : cfgPart.spanLen = 500 := rfl

@[simp] theorem cfgPart_loopLen : cfgPart.loopLen = 25 := rfl

/-- The traversal loop shared by both variants, with the calibration
constants as parameters. -/
def predictLoopG (cfg : GeoCfg) (proj : Coords → Coords → ℚ → Coords)
    (poles_data : List PoleRow) (adjusted_otdr_distance slackFactor : ℚ) :
    ℚ → List PoleEntry → Except PredictError Coords
  | _, [] => .error .outOfRange
  | accumulated_distance, entry :: rest =>
    let pole_distance := entry.dist
    let cable_adjustment :=
      (⌊(accumulated_distance + pole_distance) / cfg.spanLen⌋ : ℚ) *
        cfg.loopLen * slackFactor
    let effective_distance := adjusted_otdr_distance - cable_adjustment
    if accumulated_distance + pole_distance ≥ effective_distance then
      let distance_within_segment := effective_distance - accumulated_distance
      match lookupPole poles_data entry.pole_id with
      | none => .error .lookupError
      | some start_coords =>
        match rest with
        | [] => .ok start_coords
        | next :: _ =>
          match lookupPole poles_data next.pole_id with
          | none => .error .lookupError
          | some end_coords =>
            if distance_within_segment = 0 then .ok start_coords
            else .ok (proj start_coords end_coords distance_within_segment)
    else
      predictLoopG cfg proj poles_data adjusted_otdr_distance slackFactor
        (accumulated_distance + pole_distance) rest

/-- The shared algorithm at configurable constants. -/
def predict_cut_locationG (cfg : GeoCfg) (proj : Coords → Coords → ℚ → Coords)
    (segment_poles : List PoleEntry) (poles_data : List PoleRow)
    (distance_otdr slackFactor : ℚ) : Except PredictError Coords :=
  predictLoopG cfg proj poles_data (distance_otdr * cfg.overread) slackFactor
    0 segment_poles

/-- Concrete stand-in projection used by witnesses and counterexamples:
shifts the start latitude by the within-span distance.  Like the actual
geodesic projection it returns a point different from the start whenever the
distance is nonzero. -/
def projTest (start_coords _end_coords : Coords) (dws : ℚ) : Coords :=
  (start_coords.1 + dws, start_coords.2)

/-- Equality of predictor results is decidable, so concrete runs can be
checked by evaluation. -/
instance exceptDecEq {ε : Type} {α : Type} [DecidableEq ε] [DecidableEq α] :
    DecidableEq (Except ε α) := fun a b =>
  match a, b with
  | .error e, .error f =>
      if h : e = f then isTrue (h ▸ rfl)
      else isFalse fun hc => h (Except.error.inj hc)
  | .error _, .ok _ => isFalse fun hc => Except.noConfusion hc
  | .ok _, .error _ => isFalse fun hc => Except.noConfusion hc
  | .ok a, .ok b =>
      if h : a = b then isTrue (h ▸ rfl)
      else isFalse fun hc => h (Except.ok.inj hc)

/-- Physical distance accumulated after walking the first `i` entries of the
chain: the value of `accumulated_distance` when the loop reaches entry `i`. -/
def accDist (chain : List PoleEntry) (i : ℕ) : ℚ :=
  ((chain.take i).map PoleEntry.dist).sum

/-- Loop condition of entry `i` when the traversal starts from offset `acc`:
`accumulated_distance + pole_distance ≥ effective_distance` with the
cable-slack adjustment of the given constants. -/
def offHit (cfg : GeoCfg) (adjusted slackFactor acc : ℚ)
    (chain : List PoleEntry) (i : ℕ) : Prop :=
  acc + accDist chain (i + 1) ≥
    adjusted -
      (⌊(acc + accDist chain (i + 1)) / cfg.spanLen⌋ : ℚ) * cfg.loopLen * slackFactor

instance offHitDecidable (cfg : GeoCfg) (adjusted slackFactor acc : ℚ)
    (chain : List PoleEntry) (i : ℕ) :
    Decidable (offHit cfg adjusted slackFactor acc chain i) := by
  unfold offHit
  exact inferInstance

/-- The `distance_within_segment` the loop computes at entry `i`:
`effective_distance - accumulated_distance` there. -/
def offDws (cfg : GeoCfg) (adjusted slackFactor acc : ℚ)
    (chain : List PoleEntry) (i : ℕ) : ℚ :=
  (adjusted -
      (⌊(acc + accDist chain (i + 1)) / cfg.spanLen⌋ : ℚ) * cfg.loopLen * slackFactor) -
    (acc + accDist chain i)

/-- Span-selection condition of entry `i` for a call
`predict_cut_location(chain, poles, d, sf)`:
`accumulated_distance + pole_distance ≥ d * overread - cable_adjustment`. -/
def cutHit (cfg : GeoCfg) (distance_otdr slackFactor : ℚ)
    (chain : List PoleEntry) (i : ℕ) : Prop :=
  offHit cfg (distance_otdr * cfg.overread) slackFactor 0 chain i

instance cutHitDecidable (cfg : GeoCfg) (distance_otdr slackFactor : ℚ)
    (chain : List PoleEntry) (i : ℕ) :
    Decidable (cutHit cfg distance_otdr slackFactor chain i) := by
  unfold cutHit
  exact inferInstance

/-- The `distance_within_segment` of entry `i` for a call
`predict_cut_location(chain, poles, d, sf)`. -/
def cutDws (cfg : GeoCfg) (distance_otdr slackFactor : ℚ)
    (chain : List PoleEntry) (i : ℕ) : ℚ :=
  offDws cfg (distance_otdr * cfg.overread) slackFactor 0 chain i

/-- Result of the loop body once the traversal has stopped at entry `i`:
resolve the entry's pole, then either return it (chain end), fail the
successor lookup, or project the within-span distance. -/
def hitOutcome (cfg : GeoCfg) (proj : Coords → Coords → ℚ → Coords)
    (poles_data : List PoleRow) (adjusted slackFactor acc : ℚ)
    (chain : List PoleEntry) (i : ℕ) : Except PredictError Coords :=
  match chain.drop i with
  | [] => .error .outOfRange
  | entry :: rest =>
    match lookupPole poles_data entry.pole_id with
    | none => .error .lookupError
    | some start_coords =>
      match rest with
      | [] => .ok start_coords
      | next :: _ =>
        match lookupPole poles_data next.pole_id with
        | none => .error .lookupError
        | some end_coords =>
          if offDws cfg adjusted slackFactor acc chain i = 0 then .ok start_coords
          else .ok (proj start_coords end_coords
            (offDws cfg adjusted slackFactor acc chain i))

theorem accDist_zero (chain : List PoleEntry) : accDist chain 0 = 0 := rfl

theorem accDist_cons_succ (e : PoleEntry) (rest : List PoleEntry) (i : ℕ) :
    accDist (e :: rest) (i + 1) = e.dist + accDist rest i := by
  simp [accDist, List.take_succ_cons]

theorem offHit_cons_zero (cfg : GeoCfg) (adjusted sf acc : ℚ) (e : PoleEntry)
    (rest : List PoleEntry) :
    offHit cfg adjusted sf acc (e :: rest) 0 ↔
      acc + e.dist ≥
        adjusted - (⌊(acc + e.dist) / cfg.spanLen⌋ : ℚ) * cfg.loopLen * sf := by
  simp [offHit, accDist_cons_succ, accDist_zero]

theorem offHit_cons_succ (cfg : GeoCfg) (adjusted sf acc : ℚ) (e : PoleEntry)
    (rest : List PoleEntry) (i : ℕ) :
    offHit cfg adjusted sf acc (e :: rest) (i + 1) ↔
      offHit cfg adjusted sf (acc + e.dist) rest i := by
  simp [offHit, accDist_cons_succ, add_assoc]

theorem offDws_cons_zero (cfg : GeoCfg) (adjusted sf acc : ℚ) (e : PoleEntry)
    (rest : List PoleEntry) :
    offDws cfg adjusted sf acc (e :: rest) 0 =
      adjusted - (⌊(acc + e.dist) / cfg.spanLen⌋ : ℚ) * cfg.loopLen * sf - acc := by
  simp [offDws, accDist_cons_succ, accDist_zero]

theorem offDws_cons_succ (cfg : GeoCfg) (adjusted sf acc : ℚ) (e : PoleEntry)
    (rest : List PoleEntry) (i : ℕ) :
    offDws cfg adjusted sf acc (e :: rest) (i + 1) =
      offDws cfg adjusted sf (acc + e.dist) rest i := by
  simp [offDws, accDist_cons_succ, add_assoc]

theorem hitOutcome_cons_succ (cfg : GeoCfg) (proj : Coords → Coords → ℚ → Coords)
    (poles_data : List PoleRow) (adjusted sf acc : ℚ) (e : PoleEntry)
    (rest : List PoleEntry) (i : ℕ) :
    hitOutcome cfg proj poles_data adjusted sf acc (e :: rest) (i + 1) =
      hitOutcome cfg proj poles_data adjusted sf (acc + e.dist) rest i := by
  unfold hitOutcome
  rw [List.drop_succ_cons, offDws_cons_succ]

/-- When no entry of the (remaining) chain satisfies the loop condition the
traversal falls through and raises the out-of-range ValueError. -/
theorem predictLoopG_noHit (cfg : GeoCfg) (proj : Coords → Coords → ℚ → Coords)
    (poles_data : List PoleRow) (adjusted sf : ℚ) :
    ∀ (chain : List PoleEntry) (acc : ℚ),
      (∀ i, i < chain.length → ¬ offHit cfg adjusted sf acc chain i) →
      predictLoopG cfg proj poles_data adjusted sf acc chain =
        .error .outOfRange := by
  intro chain
  induction chain with
  | nil => intro acc _; rfl
  | cons e rest ih =>
    intro acc hmiss
    have h0 : ¬ (acc + e.dist ≥
        adjusted - (⌊(acc + e.dist) / cfg.spanLen⌋ : ℚ) * cfg.loopLen * sf) := by
      have h := hmiss 0 (Nat.succ_pos _)
      rw [offHit_cons_zero] at h
      exact h
    simp only [predictLoopG]
    rw [if_neg h0]
    refine ih (acc + e.dist) (fun i hi => ?_)
    have h := hmiss (i + 1) (by simpa using Nat.succ_lt_succ hi)
    rwa [offHit_cons_succ] at h

/-- Master lemma: when entry `i` is the first entry satisfying the loop
condition, the traversal loop returns exactly the body outcome at entry
`i`. -/
theorem predictLoopG_hit (cfg : GeoCfg) (proj : Coords → Coords → ℚ → Coords)
    (poles_data : List PoleRow) (adjusted sf : ℚ) :
    ∀ (chain : List PoleEntry) (i : ℕ) (acc : ℚ),
      i < chain.length →
      (∀ j, j < i → ¬ offHit cfg adjusted sf acc chain j) →
      offHit cfg adjusted sf acc chain i →
      predictLoopG cfg proj poles_data adjusted sf acc chain =
        hitOutcome cfg proj poles_data adjusted sf acc chain i := by
  intro chain
  induction chain with
  | nil => intro i acc hi _ _; exact absurd hi (by simp)
  | cons e rest ih =>
    intro i acc hi hfst hhit
    cases i with
    | zero =>
      rw [offHit_cons_zero] at hhit
      simp only [predictLoopG]
      rw [if_pos hhit]
      unfold hitOutcome
      rw [List.drop_zero, offDws_cons_zero]
    | succ k =>
      have h0 := hfst 0 (Nat.succ_pos k)
      rw [offHit_cons_zero] at h0
      simp only [predictLoopG]
      rw [if_neg h0, hitOutcome_cons_succ]
      refine ih k (acc + e.dist) ?_ ?_ ?_
      · exact Nat.lt_of_succ_lt_succ (by simpa using hi)
      · intro j hj
        have h := hfst (j + 1) (Nat.succ_lt_succ hj)
        rwa [offHit_cons_succ] at h
      · rwa [offHit_cons_succ] at hhit

/-- The `src/cpapp.py` loop is the shared loop at constants 400 and 15. -/
theorem predictLoopCp_eq_generic (proj : Coords → Coords → ℚ → Coords)
    (poles_data : List PoleRow) (adjusted sf : ℚ) :
    ∀ (chain : List PoleEntry) (acc : ℚ),
      predictLoopCp proj poles_data adjusted sf acc chain =
        predictLoopG cfgCp proj poles_data adjusted sf acc chain := by
  intro chain
  induction chain with
  | nil => intro acc; rfl
  | cons e rest ih =>
    intro acc
    simp only [predictLoopCp, predictLoopG, cfgCp]
    rw [ih]
    rfl

/-- The `src/unnamed/part_000` loop is the shared loop at constants 500 and
25. -/
theorem predictLoopPart_eq_generic (proj : Coords → Coords → ℚ → Coords)
    (poles_data : List PoleRow) (adjusted sf : ℚ) :
    ∀ (chain : List PoleEntry) (acc : ℚ),
      predictLoopPart proj poles_data adjusted sf acc chain =
        predictLoopG cfgPart proj poles_data adjusted sf acc chain := by
  intro chain
  induction chain with
  | nil => intro acc; rfl
  | cons e rest ih =>
    intro acc
    simp only [predictLoopPart, predictLoopG, cfgPart]
    rw [ih]
    rfl

theorem predictCp_eq_generic (proj : Coords → Coords → ℚ → Coords)
    (chain : List PoleEntry) (poles_data : List PoleRow) (d sf : ℚ) :
    predict_cut_locationCp proj chain poles_data d sf =
      predict_cut_locationG cfgCp proj chain poles_data d sf := by
  unfold predict_cut_locationCp predict_cut_locationG
  rw [predictLoopCp_eq_generic]
  rfl

theorem predictPart_eq_generic (proj : Coords → Coords → ℚ → Coords)
    (chain : List PoleEntry) (poles_data : List PoleRow) (d sf : ℚ) :
    predict_cut_locationPart proj chain poles_data d sf =
      predict_cut_locationG cfgPart proj chain poles_data d sf := by
  unfold predict_cut_locationPart predict_cut_locationG
  rw [predictLoopPart_eq_generic]
  rfl

/-- Mirror of the `src/cpapp.py` traversal that reports the along-chain
offset of the point `predict_cut_location` returns instead of its
coordinates (assuming the pole lookups succeed): `accumulated_distance` when
the chain ends at the selected entry, and `accumulated_distance +
distance_within_segment` when the point is projected into the span. -/
def alongPosLoop (slackFactor adjusted_otdr_distance : ℚ) :
    ℚ → List PoleEntry → Except PredictError ℚ
  | _, [] => .error .outOfRange
  | accumulated_distance, entry :: rest =>
    let pole_distance := entry.dist
    let cable_adjustment :=
      (⌊(accumulated_distance + pole_distance) / 400⌋ : ℚ) * 15 * slackFactor
    let effective_distance := adjusted_otdr_distance - cable_adjustment
    if accumulated_distance + pole_distance ≥ effective_distance then
      match rest with
      | [] => .ok accumulated_distance
      | _ :: _ =>
        .ok (accumulated_distance + (effective_distance - accumulated_distance))
    else
      alongPosLoop slackFactor adjusted_otdr_distance
        (accumulated_distance + pole_distance) rest

/-- Along-chain offset of the prediction of `src/cpapp.py` for a given OTDR
distance. -/
def alongPos (segment_poles : List PoleEntry) (distance_otdr slackFactor : ℚ) :
    Except PredictError ℚ :=
  alongPosLoop slackFactor (distance_otdr * 1.25) 0 segment_poles

/-- Characterization of `alongPosLoop` at the first entry satisfying the
loop condition. -/
theorem alongPosLoop_hit (sf adjusted : ℚ) :
    ∀ (chain : List PoleEntry) (i : ℕ) (acc : ℚ),
      i < chain.length →
      (∀ j, j < i → ¬ offHit cfgCp adjusted sf acc chain j) →
      offHit cfgCp adjusted sf acc chain i →
      alongPosLoop sf adjusted acc chain =
        .ok (if chain.drop (i + 1) = [] then acc + accDist chain i
          else (acc + accDist chain i) + offDws cfgCp adjusted sf acc chain i) := by
  intro chain
  induction chain with
  | nil => intro i acc hi _ _; exact absurd hi (by simp)
  | cons e rest ih =>
    intro i acc hi hfst hhit
    cases i with
    | zero =>
      rw [offHit_cons_zero] at hhit
      simp only [cfgCp_spanLen, cfgCp_loopLen] at hhit
      simp only [alongPosLoop]
      rw [if_pos hhit]
      cases rest with
      | nil =>
        simp [accDist_zero]
      | cons e2 rest2 =>
        simp [accDist_zero, offDws_cons_zero]
    | succ k =>
      have h0 := hfst 0 (Nat.succ_pos k)
      rw [offHit_cons_zero] at h0
      simp only [cfgCp_spanLen, cfgCp_loopLen] at h0
      simp only [alongPosLoop]
      rw [if_neg h0]
      rw [ih k (acc + e.dist) (Nat.lt_of_succ_lt_succ (by simpa using hi))
        (fun j hj => by
          have h := hfst (j + 1) (Nat.succ_lt_succ hj)
          rwa [offHit_cons_succ] at h)
        (by rwa [offHit_cons_succ] at hhit)]
      rw [List.drop_succ_cons, offDws_cons_succ, accDist_cons_succ, add_assoc]

/-- Degrees to radians, as in the source's use of `math.radians`. -/
noncomputable def radiansR (x : ℝ) : ℝ := x * Real.pi / 180

/-- Radians to degrees, as in the source's use of `math.degrees`. -/
noncomputable def degreesR (x : ℝ) : ℝ := x * 180 / Real.pi

/-- Python's float modulo for a positive modulus:
`a % n = a - n * floor(a / n)`. -/
noncomputable def pymod (a n : ℝ) : ℝ := a - n * ⌊a / n⌋

/-- Python's `math.atan2(a, b)`: the argument of the complex number
`b + a*i`, in `(-pi, pi]`, with `atan2(0, 0) = 0`. -/
noncomputable def pyAtan2 (a b : ℝ) : ℝ := Complex.arg ⟨b, a⟩

/-- Embedding of `calculate_initial_bearing` from `src/cpapp.py` (the
`src/unnamed/part_000` copy is character-identical): the atan2-based initial
bearing converted to degrees and reduced modulo 360. -/
noncomputable def calculate_initial_bearing (start_coords end_coords : ℝ × ℝ) : ℝ :=
  let lat1 := radiansR start_coords.1
  let lon1 := radiansR start_coords.2
  let lat2 := radiansR end_coords.1
  let lon2 := radiansR end_coords.2
  let delta_lon := lon2 - lon1
  let x := Real.sin delta_lon * Real.cos lat2
  let y := Real.cos lat1 * Real.sin lat2 -
    Real.sin lat1 * Real.cos lat2 * Real.cos delta_lon
  pymod (degreesR (pyAtan2 x y) + 360) 360

/-- Modelled from the spec: the `destination` operation used at the geodesic
projection step is geopy's `geodesic(...).destination`, an external library
call with no source in this repository; section 4.1 of the spec describes it
as the standard great-circle destination projection, embedded here over a
sphere (the radius only matters for nonzero distances). -/
noncomputable def destination (p : ℝ × ℝ) (bearing_degrees distance_km : ℝ) :
    ℝ × ℝ :=
  let lat1 := radiansR p.1
  let lon1 := radiansR p.2
  let theta := radiansR bearing_degrees
  let delta := distance_km / 6371
  let lat2 := Real.arcsin (Real.sin lat1 * Real.cos delta +
    Real.cos lat1 * Real.sin delta * Real.cos theta)
  let lon2 := lon1 + pyAtan2 (Real.sin theta * Real.sin delta * Real.cos lat1)
    (Real.cos delta - Real.sin lat1 * Real.sin lat2)
  (degreesR lat2, degreesR lon2)

/-- Python's float modulo with a positive modulus lands in `[0, n)`. -/
theorem pymod_mem (a n : ℝ) (hn : 0 < n) : 0 ≤ pymod a n ∧ pymod a n < n := by
  have hfr : pymod a n = n * Int.fract (a / n) := by
    unfold pymod Int.fract
    field_simp
  constructor
  · rw [hfr]
    exact mul_nonneg hn.le (Int.fract_nonneg _)
  · rw [hfr]
    calc n * Int.fract (a / n) < n * 1 :=
          (mul_lt_mul_left hn).2 (Int.fract_lt_one _)
    _ = n := mul_one n

/-- Outcome when the selected entry's own pole is missing from the table:
the IndexError of the first coordinate lookup. -/
theorem hitOutcome_lookup_none (cfg : GeoCfg) (proj : Coords → Coords → ℚ → Coords)
    (poles_data : List PoleRow) (adjusted sf acc : ℚ) (chain : List PoleEntry)
    (i : ℕ) (entry : PoleEntry) (restAfter : List PoleEntry)
    (h : chain.drop i = entry :: restAfter)
    (hl : lookupPole poles_data entry.pole_id = none) :
    hitOutcome cfg proj poles_data adjusted sf acc chain i =
      .error .lookupError := by
  simp only [hitOutcome, h, hl]

/-- Outcome when the selected entry is the last of the chain: its own
coordinates, returned verbatim. -/
theorem hitOutcome_last (cfg : GeoCfg) (proj : Coords → Coords → ℚ → Coords)
    (poles_data : List PoleRow) (adjusted sf acc : ℚ) (chain : List PoleEntry)
    (i : ℕ) (entry : PoleEntry) (start_coords : Coords)
    (h : chain.drop i = [entry])
    (hl : lookupPole poles_data entry.pole_id = some start_coords) :
    hitOutcome cfg proj poles_data adjusted sf acc chain i = .ok start_coords := by
  simp only [hitOutcome, h, hl]

/-- Outcome when the successor entry's pole is missing from the table: the
IndexError of the second coordinate lookup. -/
theorem hitOutcome_next_none (cfg : GeoCfg) (proj : Coords → Coords → ℚ → Coords)
    (poles_data : List PoleRow) (adjusted sf acc : ℚ) (chain : List PoleEntry)
    (i : ℕ) (entry next : PoleEntry) (rest2 : List PoleEntry)
    (start_coords : Coords) (h : chain.drop i = entry :: next :: rest2)
    (hl : lookupPole poles_data entry.pole_id = some start_coords)
    (hl2 : lookupPole poles_data next.pole_id = none) :
    hitOutcome cfg proj poles_data adjusted sf acc chain i =
      .error .lookupError := by
  simp only [hitOutcome, h, hl, hl2]

/-- Outcome when the selected entry has a successor and both poles resolve:
the entry's own pole when `distance_within_segment` is exactly zero,
otherwise the geodesic projection of that distance toward the successor. -/
theorem hitOutcome_project (cfg : GeoCfg) (proj : Coords → Coords → ℚ → Coords)
    (poles_data : List PoleRow) (adjusted sf acc : ℚ) (chain : List PoleEntry)
    (i : ℕ) (entry next : PoleEntry) (rest2 : List PoleEntry)
    (start_coords end_coords : Coords) (h : chain.drop i = entry :: next :: rest2)
    (hl : lookupPole poles_data entry.pole_id = some start_coords)
    (hl2 : lookupPole poles_data next.pole_id = some end_coords) :
    hitOutcome cfg proj poles_data adjusted sf acc chain i =
      (if offDws cfg adjusted sf acc chain i = 0 then .ok start_coords
        else .ok (proj start_coords end_coords
          (offDws cfg adjusted sf acc chain i))) := by
  simp only [hitOutcome, h, hl, hl2]

/-- C1: for a non-empty chain whose referenced poles are all present, with a
non-negative OTDR distance and a positive slack ratio, whenever
`predict_cut_location` of `src/cpapp.py` returns a point, the point comes
from the first entry (in chain order) whose accumulated distance plus span
distance reaches the effective distance, and it is the projection of
`distance_within_segment` metres from that entry's pole toward the next
pole, or that pole itself when the chain ends there or the distance is
exactly zero. -/
theorem c1_first_hit_span (proj : Coords → Coords → ℚ → Coords)
    (chain : List PoleEntry) (poles_data : List PoleRow) (d sf : ℚ)
    (pt : Coords) (hne : chain ≠ [])
    (hpoles : ∀ e ∈ chain, (lookupPole poles_data e.pole_id).isSome = true)
    (hd : 0 ≤ d) (hsf : 0 < sf)
    (hok : predict_cut_locationCp proj chain poles_data d sf = .ok pt) :
    ∃ i entry restAfter,
      chain.drop i = entry :: restAfter ∧
      (∀ j, j < i → ¬ cutHit cfgCp d sf chain j) ∧
      cutHit cfgCp d sf chain i ∧
      ∃ start_coords,
        lookupPole poles_data entry.pole_id = some start_coords ∧
        ((restAfter = [] ∧ pt = start_coords) ∨
          ∃ next rest2 end_coords,
            restAfter = next :: rest2 ∧
            lookupPole poles_data next.pole_id = some end_coords ∧
            pt = if cutDws cfgCp d sf chain i = 0 then start_coords
              else proj start_coords end_coords (cutDws cfgCp d sf chain i)) := by
  rw [predictCp_eq_generic] at hok
  unfold predict_cut_locationG at hok
  by_cases hex : ∃ i, i < chain.length ∧ cutHit cfgCp d sf chain i
  · have hilen := (Nat.find_spec hex).1
    have hihit := (Nat.find_spec hex).2
    have hfst : ∀ j, j < Nat.find hex → ¬ cutHit cfgCp d sf chain j := by
      intro j hj hcut
      exact Nat.find_min hex hj ⟨lt_trans hj hilen, hcut⟩
    rw [predictLoopG_hit cfgCp proj poles_data (d * cfgCp.overread) sf chain
      (Nat.find hex) 0 hilen hfst hihit] at hok
    rcases hdrop : chain.drop (Nat.find hex) with _ | ⟨entry, restAfter⟩
    · have hlen := congrArg List.length hdrop
      simp [List.length_drop] at hlen
      omega
    · refine ⟨Nat.find hex, entry, restAfter, hdrop, hfst, hihit, ?_⟩
      cases hstart : lookupPole poles_data entry.pole_id with
      | none =>
        rw [hitOutcome_lookup_none cfgCp proj poles_data (d * cfgCp.overread)
          sf 0 chain (Nat.find hex) entry restAfter hdrop hstart] at hok
        exact absurd hok (by simp)
      | some start_coords =>
        cases restAfter with
        | nil =>
          rw [hitOutcome_last cfgCp proj poles_data (d * cfgCp.overread)
            sf 0 chain (Nat.find hex) entry start_coords hdrop hstart] at hok
          exact ⟨start_coords, rfl, Or.inl ⟨rfl, (Except.ok.inj hok).symm⟩⟩
        | cons next rest2 =>
          cases hstop : lookupPole poles_data next.pole_id with
          | none =>
            rw [hitOutcome_next_none cfgCp proj poles_data (d * cfgCp.overread)
              sf 0 chain (Nat.find hex) entry next rest2 start_coords hdrop
              hstart hstop] at hok
            exact absurd hok (by simp)
          | some end_coords =>
            rw [hitOutcome_project cfgCp proj poles_data (d * cfgCp.overread)
              sf 0 chain (Nat.find hex) entry next rest2 start_coords
              end_coords hdrop hstart hstop] at hok
            refine ⟨start_coords, rfl,
              Or.inr ⟨next, rest2, end_coords, rfl, hstop, ?_⟩⟩
            by_cases hz : offDws cfgCp (d * cfgCp.overread) sf 0 chain
                (Nat.find hex) = 0
            · rw [if_pos hz] at hok
              have hzc : cutDws cfgCp d sf chain (Nat.find hex) = 0 := hz
              rw [if_pos hzc]
              exact (Except.ok.inj hok).symm
            · rw [if_neg hz] at hok
              have hzc : ¬ cutDws cfgCp d sf chain (Nat.find hex) = 0 := hz
              rw [if_neg hzc]
              exact (Except.ok.inj hok).symm
  · exfalso
    rw [predictLoopG_noHit cfgCp proj poles_data (d * cfgCp.overread) sf chain 0
      (fun i hi hh => hex ⟨i, hi, hh⟩)] at hok
    exact Except.noConfusion hok

/-- Witness for C1 at a concrete run: a two-pole chain in which the second
span is selected by the loop. -/
theorem c1_witness :
    ∃ i entry restAfter,
      List.drop i [(⟨1, 300⟩ : PoleEntry), ⟨2, 200⟩] = entry :: restAfter ∧
      (∀ j, j < i → ¬ cutHit cfgCp 200 1 [⟨1, 300⟩, ⟨2, 200⟩] j) ∧
      cutHit cfgCp 200 1 [⟨1, 300⟩, ⟨2, 200⟩] i ∧
      ∃ start_coords,
        lookupPole [⟨1, 10, 100⟩, ⟨2, 10002/1000, 100⟩] entry.pole_id =
          some start_coords ∧
        ((restAfter = [] ∧ ((260 : ℚ), (100 : ℚ)) = start_coords) ∨
          ∃ next rest2 end_coords,
            restAfter = next :: rest2 ∧
            lookupPole [⟨1, 10, 100⟩, ⟨2, 10002/1000, 100⟩] next.pole_id =
              some end_coords ∧
            ((260 : ℚ), (100 : ℚ)) =
              if cutDws cfgCp 200 1 [⟨1, 300⟩, ⟨2, 200⟩] i = 0 then start_coords
              else projTest start_coords end_coords
                (cutDws cfgCp 200 1 [⟨1, 300⟩, ⟨2, 200⟩] i)) :=
  c1_first_hit_span projTest [⟨1, 300⟩, ⟨2, 200⟩]
    [⟨1, 10, 100⟩, ⟨2, 10002/1000, 100⟩] 200 1 (260, 100) (by simp)
    (by
      intro e he
      rcases List.mem_cons.1 he with h | h
      · subst h; norm_num [lookupPole]
      · rcases List.mem_cons.1 h with h2 | h2
        · subst h2; norm_num [lookupPole]
        · simp at h2)
    (by norm_num) (by norm_num)
    (by norm_num [predict_cut_locationCp, predictLoopCp, lookupPole, projTest])

/-- C2: in both variants, when no entry of a non-empty chain satisfies the
span condition the traversal exhausts the chain and the call fails with the
out-of-range error, a failure value distinct from the other failure kinds
and not an ok result. -/
theorem c2_exhausted_out_of_range (proj : Coords → Coords → ℚ → Coords)
    (chain : List PoleEntry) (poles_data : List PoleRow) (d sf : ℚ)
    (hne : chain ≠ [])
    (hcp : ∀ i, i < chain.length → ¬ cutHit cfgCp d sf chain i)
    (hpart : ∀ i, i < chain.length → ¬ cutHit cfgPart d sf chain i) :
    predict_cut_locationCp proj chain poles_data d sf = .error .outOfRange ∧
    predict_cut_locationPart proj chain poles_data d sf = .error .outOfRange ∧
    PredictError.outOfRange ≠ PredictError.lookupError ∧
    PredictError.outOfRange ≠ PredictError.invalidSegment ∧
    ∀ pt : Coords,
      predict_cut_locationCp proj chain poles_data d sf ≠ .ok pt := by
  have h1 : predict_cut_locationCp proj chain poles_data d sf =
      .error .outOfRange := by
    rw [predictCp_eq_generic]
    unfold predict_cut_locationG
    exact predictLoopG_noHit cfgCp proj poles_data (d * cfgCp.overread) sf
      chain 0 hcp
  have h2 : predict_cut_locationPart proj chain poles_data d sf =
      .error .outOfRange := by
    rw [predictPart_eq_generic]
    unfold predict_cut_locationG
    exact predictLoopG_noHit cfgPart proj poles_data (d * cfgPart.overread) sf
      chain 0 hpart
  refine ⟨h1, h2, by simp, by simp, fun pt hpt => ?_⟩
  rw [h1] at hpt
  exact Except.noConfusion hpt

/-- Witness for C2: a single 100 m span cannot reach an OTDR reading of
10000 m in either variant. -/
theorem c2_witness :
    predict_cut_locationCp projTest [⟨1, 100⟩] [] 10000 1 =
      .error .outOfRange ∧
    predict_cut_locationPart projTest [⟨1, 100⟩] [] 10000 1 =
      .error .outOfRange ∧
    PredictError.outOfRange ≠ PredictError.lookupError ∧
    PredictError.outOfRange ≠ PredictError.invalidSegment ∧
    ∀ pt : Coords,
      predict_cut_locationCp projTest [⟨1, 100⟩] [] 10000 1 ≠ .ok pt :=
  c2_exhausted_out_of_range projTest [⟨1, 100⟩] [] 10000 1 (by simp)
    (by
      intro i hi
      have hz : i = 0 := by simpa using hi
      subst hz
      norm_num [cutHit, offHit, accDist])
    (by
      intro i hi
      have hz : i = 0 := by simpa using hi
      subst hz
      norm_num [cutHit, offHit, accDist])

/-- C3 counterexample: with an empty chain `predict_cut_location` of
`src/cpapp.py` falls through its loop and raises the out-of-range
ValueError, not the invalid-segment failure the claim names. -/
theorem c3_counterexample :
    predict_cut_locationCp projTest [] [] 0 1 = .error .outOfRange ∧
    predict_cut_locationCp projTest [] [] 0 1 ≠ .error .invalidSegment :=
  ⟨rfl, fun h => by
    rw [show predict_cut_locationCp projTest [] [] 0 1 = .error .outOfRange
      from rfl] at h
    exact PredictError.noConfusion (Except.error.inj h)⟩

/-- C3 amended: an empty chain makes both `predict_cut_location` variants
fail with the out-of-range error; the invalid-segment ValueError is raised
by `validate_segment` (exactly when the segment filter is empty), before
`predict_cut_location` is ever called, and the two failures are distinct. -/
theorem c3_amended_empty_chain (proj : Coords → Coords → ℚ → Coords)
    (poles_data : List PoleRow) (d sf : ℚ) :
    predict_cut_locationCp proj [] poles_data d sf = .error .outOfRange ∧
    predict_cut_locationPart proj [] poles_data d sf = .error .outOfRange ∧
    (∀ (segment_data : List SegRow) (sid : ℕ),
      validate_segment segment_data sid = .error .invalidSegment ↔
        segment_data.filter (fun row => row.segment_id == sid) = []) ∧
    PredictError.outOfRange ≠ PredictError.invalidSegment := by
  refine ⟨rfl, rfl, ?_, by simp⟩
  intro segment_data sid
  cases hf : segment_data.filter (fun row => row.segment_id == sid) with
  | nil => simp [validate_segment, hf]
  | cons a l => simp [validate_segment, hf]

/-- Witness for C3 amended at concrete inputs. -/
theorem c3_amended_witness :
    predict_cut_locationCp projTest [] [] 0 1 = .error .outOfRange ∧
    validate_segment [] 7 = .error .invalidSegment :=
  ⟨(c3_amended_empty_chain projTest [] 0 1).1,
    ((c3_amended_empty_chain projTest [] 0 1).2.2.1 [] 7).mpr rfl⟩

/-- C4: when the traversal stops at an entry whose pole id (or whose
successor's pole id) has no row in the poles table, `predict_cut_location`
of `src/cpapp.py` fails with the lookup error instead of returning a
point. -/
theorem c4_missing_pole (proj : Coords → Coords → ℚ → Coords)
    (chain : List PoleEntry) (poles_data : List PoleRow) (d sf : ℚ) (i : ℕ)
    (hfst : ∀ j, j < i → ¬ cutHit cfgCp d sf chain j)
    (hhit : cutHit cfgCp d sf chain i)
    (hmiss : ∃ entry restAfter,
      chain.drop i = entry :: restAfter ∧
      (lookupPole poles_data entry.pole_id = none ∨
        ∃ next rest2, restAfter = next :: rest2 ∧
          lookupPole poles_data next.pole_id = none)) :
    predict_cut_locationCp proj chain poles_data d sf =
      .error .lookupError ∧
    ∀ pt : Coords,
      predict_cut_locationCp proj chain poles_data d sf ≠ .ok pt := by
  obtain ⟨entry, restAfter, hdrop, hcase⟩ := hmiss
  have hi : i < chain.length := by
    by_contra hge
    have : chain.drop i = [] := List.drop_eq_nil_of_le (by omega)
    rw [this] at hdrop
    exact List.noConfusion hdrop
  have hmain : predict_cut_locationCp proj chain poles_data d sf =
      .error .lookupError := by
    rw [predictCp_eq_generic]
    unfold predict_cut_locationG
    rw [predictLoopG_hit cfgCp proj poles_data (d * cfgCp.overread) sf chain
      i 0 hi hfst hhit]
    cases hcase with
    | inl h =>
      exact hitOutcome_lookup_none cfgCp proj poles_data (d * cfgCp.overread)
        sf 0 chain i entry restAfter hdrop h
    | inr h =>
      obtain ⟨next, rest2, hrest, hl2⟩ := h
      subst hrest
      cases hstart : lookupPole poles_data entry.pole_id with
      | none =>
        exact hitOutcome_lookup_none cfgCp proj poles_data (d * cfgCp.overread)
          sf 0 chain i entry (next :: rest2) hdrop hstart
      | some start_coords =>
        exact hitOutcome_next_none cfgCp proj poles_data (d * cfgCp.overread)
          sf 0 chain i entry next rest2 start_coords hdrop hstart hl2
  refine ⟨hmain, fun pt hpt => ?_⟩
  rw [hmain] at hpt
  exact Except.noConfusion hpt

/-- Witness for C4: a one-entry chain whose pole is absent from an empty
poles table. -/
theorem c4_witness :
    predict_cut_locationCp projTest [⟨1, 100⟩] [] 0 1 =
      .error .lookupError ∧
    ∀ pt : Coords,
      predict_cut_locationCp projTest [⟨1, 100⟩] [] 0 1 ≠ .ok pt :=
  c4_missing_pole projTest [⟨1, 100⟩] [] 0 1 0
    (fun j hj => absurd hj (Nat.not_lt_zero j))
    (by norm_num [cutHit, offHit, accDist])
    ⟨⟨1, 100⟩, [], rfl, Or.inl rfl⟩

/-- C5 counterexample: with `distance_otdr = 0`, a first span of 400 m and a
second pole present, the slack adjustment makes `distance_within_segment`
equal to `-15`, so the code projects a negative distance from the first pole
instead of returning the first pole's coordinates `(0, 0)`. -/
theorem c5_counterexample :
    predict_cut_locationCp projTest [⟨1, 400⟩, ⟨2, 100⟩]
      [⟨1, 0, 0⟩, ⟨2, 1, 1⟩] 0 1 = .ok (-15, 0) ∧
    lookupPole [⟨1, 0, 0⟩, ⟨2, 1, 1⟩] 1 = some (0, 0) ∧
    ((-15 : ℚ), (0 : ℚ)) ≠ ((0 : ℚ), (0 : ℚ)) := by
  refine ⟨?_, ?_, ?_⟩
  · norm_num [predict_cut_locationCp, predictLoopCp, lookupPole, projTest]
  · norm_num [lookupPole]
  · norm_num [Prod.ext_iff]

/-- C5 amended: with `distance_otdr = 0` the first entry is always selected,
and the first pole's coordinates are returned exactly when the chain has a
single entry or the first span is shorter than the 400 m slack interval (so
the slack adjustment at the first entry is zero); otherwise the code
projects the negative slack offset away from the first pole. -/
theorem c5_amended_zero_otdr (proj : Coords → Coords → ℚ → Coords)
    (entry : PoleEntry) (rest : List PoleEntry) (poles_data : List PoleRow)
    (sf : ℚ) (start_coords : Coords)
    (hd0 : 0 ≤ entry.dist) (hsf : 0 < sf)
    (hstart : lookupPole poles_data entry.pole_id = some start_coords)
    (hcase : rest = [] ∨ (entry.dist < 400 ∧
      ∃ next rest2, rest = next :: rest2 ∧
        (lookupPole poles_data next.pole_id).isSome = true)) :
    predict_cut_locationCp proj (entry :: rest) poles_data 0 sf =
      .ok start_coords := by
  have hfl : (0 : ℚ) ≤ (⌊(0 + entry.dist) / 400⌋ : ℚ) := by
    have hq : (0 : ℚ) ≤ (0 + entry.dist) / 400 := by
      apply div_nonneg
      · linarith
      · norm_num
    exact_mod_cast Int.floor_nonneg.2 hq
  have hhit0 : offHit cfgCp ((0 : ℚ) * cfgCp.overread) sf 0 (entry :: rest) 0 := by
    rw [offHit_cons_zero]
    simp only [cfgCp_spanLen, cfgCp_loopLen, cfgCp_overread]
    have h15 : (0 : ℚ) ≤ (⌊(0 + entry.dist) / 400⌋ : ℚ) * 15 * sf :=
      mul_nonneg (mul_nonneg hfl (by norm_num)) hsf.le
    have hz : (0 : ℚ) * 1.25 = 0 := by norm_num
    rw [ge_iff_le, hz]
    linarith
  rw [predictCp_eq_generic]
  unfold predict_cut_locationG
  rw [predictLoopG_hit cfgCp proj poles_data (0 * cfgCp.overread) sf
    (entry :: rest) 0 0 (by simp) (fun j hj => absurd hj (Nat.not_lt_zero j))
    hhit0]
  cases hcase with
  | inl h =>
    subst h
    exact hitOutcome_last cfgCp proj poles_data (0 * cfgCp.overread) sf 0
      [entry] 0 entry start_coords rfl hstart
  | inr h =>
    obtain ⟨h400, next, rest2, hrest, hsome⟩ := h
    subst hrest
    obtain ⟨end_coords, hstop⟩ := Option.isSome_iff_exists.mp hsome
    rw [hitOutcome_project cfgCp proj poles_data (0 * cfgCp.overread) sf 0
      (entry :: next :: rest2) 0 entry next rest2 start_coords end_coords rfl
      hstart hstop]
    have hdws : offDws cfgCp ((0 : ℚ) * cfgCp.overread) sf 0
        (entry :: next :: rest2) 0 = 0 := by
      rw [offDws_cons_zero]
      simp only [cfgCp_spanLen, cfgCp_loopLen, cfgCp_overread]
      have hz : ⌊(0 + entry.dist) / 400⌋ = 0 := by
        rw [Int.floor_eq_zero_iff]
        refine ⟨?_, ?_⟩
        · apply div_nonneg
          · linarith
          · norm_num
        · rw [div_lt_one (by norm_num : (0:ℚ) < 400)]
          linarith
      rw [hz]
      norm_num
    rw [if_pos hdws]

/-- Witness for C5 amended: `distance_otdr = 0` on a chain whose first span
is 300 m returns the first pole. -/
theorem c5_amended_witness :
    predict_cut_locationCp projTest [⟨1, 300⟩, ⟨2, 200⟩]
      [⟨1, 10, 100⟩, ⟨2, 10002/1000, 100⟩] 0 1 = .ok (10, 100) :=
  c5_amended_zero_otdr projTest ⟨1, 300⟩ [⟨2, 200⟩]
    [⟨1, 10, 100⟩, ⟨2, 10002/1000, 100⟩] 1 (10, 100)
    (by norm_num) (by norm_num) (by norm_num [lookupPole])
    (Or.inr ⟨by norm_num, ⟨2, 200⟩, [], rfl, by norm_num [lookupPole]⟩)

/-- C6 counterexample: a negative `distance_within_segment` (here `-30`) is
not treated as `0`; the code projects the negative distance and returns a
point different from the selected span's start pole `(20, 30)`. -/
theorem c6_counterexample :
    cutDws cfgCp 0 2 [⟨1, 500⟩, ⟨2, 300⟩] 0 < 0 ∧
    predict_cut_locationCp projTest [⟨1, 500⟩, ⟨2, 300⟩]
      [⟨1, 20, 30⟩, ⟨2, 21, 30⟩] 0 2 = .ok (-10, 30) ∧
    lookupPole [⟨1, 20, 30⟩, ⟨2, 21, 30⟩] 1 = some (20, 30) ∧
    ((-10 : ℚ), (30 : ℚ)) ≠ ((20 : ℚ), (30 : ℚ)) := by
  refine ⟨?_, ?_, ?_, ?_⟩
  · norm_num [cutDws, offDws, accDist]
  · norm_num [predict_cut_locationCp, predictLoopCp, lookupPole, projTest]
  · norm_num [lookupPole]
  · norm_num [Prod.ext_iff]

/-- C6 amended: the source checks `distance_within_segment == 0` exactly and
never clamps; when the selected entry has a successor, both poles resolve
and `distance_within_segment` is negative, the call returns the geodesic
projection of that negative distance, not the span's start pole. -/
theorem c6_amended_no_clamp (proj : Coords → Coords → ℚ → Coords)
    (chain : List PoleEntry) (poles_data : List PoleRow) (d sf : ℚ) (i : ℕ)
    (entry next : PoleEntry) (rest2 : List PoleEntry)
    (start_coords end_coords : Coords)
    (hfst : ∀ j, j < i → ¬ cutHit cfgCp d sf chain j)
    (hhit : cutHit cfgCp d sf chain i)
    (hdrop : chain.drop i = entry :: next :: rest2)
    (hstart : lookupPole poles_data entry.pole_id = some start_coords)
    (hstop : lookupPole poles_data next.pole_id = some end_coords)
    (hneg : cutDws cfgCp d sf chain i < 0) :
    predict_cut_locationCp proj chain poles_data d sf =
      .ok (proj start_coords end_coords (cutDws cfgCp d sf chain i)) := by
  have hi : i < chain.length := by
    by_contra hge
    have h0 : chain.drop i = [] := List.drop_eq_nil_of_le (by omega)
    rw [h0] at hdrop
    exact List.noConfusion hdrop
  rw [predictCp_eq_generic]
  unfold predict_cut_locationG
  rw [predictLoopG_hit cfgCp proj poles_data (d * cfgCp.overread) sf chain i 0
    hi hfst hhit]
  rw [hitOutcome_project cfgCp proj poles_data (d * cfgCp.overread) sf 0 chain
    i entry next rest2 start_coords end_coords hdrop hstart hstop]
  have hne0 : ¬ offDws cfgCp (d * cfgCp.overread) sf 0 chain i = 0 := by
    intro h0
    have hz : cutDws cfgCp d sf chain i = 0 := h0
    rw [hz] at hneg
    exact lt_irrefl 0 hneg
  rw [if_neg hne0]
  rfl

/-- Witness for C6 amended at the concrete negative-slack run. -/
theorem c6_amended_witness :
    predict_cut_locationCp projTest [⟨1, 500⟩, ⟨2, 300⟩]
      [⟨1, 20, 30⟩, ⟨2, 21, 30⟩] 0 2 =
      .ok (projTest (20, 30) (21, 30)
        (cutDws cfgCp 0 2 [⟨1, 500⟩, ⟨2, 300⟩] 0)) :=
  c6_amended_no_clamp projTest [⟨1, 500⟩, ⟨2, 300⟩] [⟨1, 20, 30⟩, ⟨2, 21, 30⟩]
    0 2 0 ⟨1, 500⟩ ⟨2, 300⟩ [] (20, 30) (21, 30)
    (fun j hj => absurd hj (Nat.not_lt_zero j))
    (by norm_num [cutHit, offHit, accDist]) rfl
    (by norm_num [lookupPole]) (by norm_num [lookupPole])
    (by norm_num [cutDws, offDws, accDist])

/-- C7: `calculate_initial_bearing` always lands in `[0, 360)`, and on
identical start and end points it evaluates (without any failure case in
its arithmetic) to the bearing `0`. -/
theorem c7_bearing_range_identity (p q : ℝ × ℝ) :
    (0 ≤ calculate_initial_bearing p q ∧ calculate_initial_bearing p q < 360) ∧
      calculate_initial_bearing p p = 0 := by
  constructor
  · simp only [calculate_initial_bearing]
    exact pymod_mem _ 360 (by norm_num)
  · simp only [calculate_initial_bearing]
    rw [sub_self, Real.sin_zero, Real.cos_zero]
    have hx : (0 : ℝ) * Real.cos (radiansR p.1) = 0 := zero_mul _
    have hy : Real.cos (radiansR p.1) * Real.sin (radiansR p.1) -
        Real.sin (radiansR p.1) * Real.cos (radiansR p.1) * 1 = 0 := by ring
    rw [hx, hy]
    have hz : pyAtan2 0 0 = 0 := by
      unfold pyAtan2
      have h00 : (⟨0, 0⟩ : ℂ) = 0 := by
        refine Complex.ext ?_ ?_ <;> simp
      rw [h00, Complex.arg_zero]
    rw [hz]
    have hdeg : degreesR 0 = 0 := by
      unfold degreesR
      simp
    rw [hdeg]
    unfold pymod
    norm_num

/-- C8: the great-circle destination at distance `0` kilometers returns the
starting point unchanged, for any bearing, whenever the latitude is a valid
one (between `-90` and `90` degrees). -/
theorem c8_destination_zero (p : ℝ × ℝ) (b : ℝ)
    (h1 : -90 ≤ p.1) (h2 : p.1 ≤ 90) : destination p b 0 = p := by
  have hpi := Real.pi_pos
  simp only [destination]
  rw [zero_div, Real.cos_zero, Real.sin_zero]
  have hl : Real.sin (radiansR p.1) * 1 +
      Real.cos (radiansR p.1) * 0 * Real.cos (radiansR b) =
      Real.sin (radiansR p.1) := by ring
  rw [hl]
  have hb1 : -(Real.pi / 2) ≤ radiansR p.1 := by
    unfold radiansR
    nlinarith [mul_nonneg (by linarith : (0:ℝ) ≤ p.1 + 90) hpi.le]
  have hb2 : radiansR p.1 ≤ Real.pi / 2 := by
    unfold radiansR
    nlinarith [mul_nonneg (by linarith : (0:ℝ) ≤ 90 - p.1) hpi.le]
  rw [Real.arcsin_sin hb1 hb2]
  have hx0 : Real.sin (radiansR b) * 0 * Real.cos (radiansR p.1) = 0 := by
    ring
  rw [hx0]
  have hyc : (1 : ℝ) - Real.sin (radiansR p.1) * Real.sin (radiansR p.1) =
      Real.cos (radiansR p.1) ^ 2 := by
    have hsq := Real.sin_sq_add_cos_sq (radiansR p.1)
    nlinarith [hsq]
  rw [hyc]
  have hatan : pyAtan2 0 (Real.cos (radiansR p.1) ^ 2) = 0 := by
    unfold pyAtan2
    have hc : (⟨Real.cos (radiansR p.1) ^ 2, 0⟩ : ℂ) =
        ((Real.cos (radiansR p.1) ^ 2 : ℝ) : ℂ) := Complex.ext rfl rfl
    rw [hc]
    exact Complex.arg_ofReal_of_nonneg (sq_nonneg _)
  rw [hatan, add_zero]
  have hdr : ∀ x : ℝ, degreesR (radiansR x) = x := by
    intro x
    unfold degreesR radiansR
    field_simp
  rw [hdr, hdr]

/-- Witness for C8 at the origin with bearing 45. -/
theorem c8_witness : destination (0, 0) 45 0 = (0, 0) :=
  c8_destination_zero (0, 0) 45 (by norm_num) (by norm_num)

/-- C9 counterexample: on the 300/300/300 chain, raising the OTDR distance
from 240 to 241 moves the selected span past a 400 m slack boundary, so the
along-chain position of the prediction drops from 300 to 286.25 and the
returned point itself moves backwards. -/
theorem c9_counterexample :
    alongPos [⟨1, 300⟩, ⟨2, 300⟩, ⟨3, 300⟩] 240 1 = .ok 300 ∧
    alongPos [⟨1, 300⟩, ⟨2, 300⟩, ⟨3, 300⟩] 241 1 = .ok (1145/4) ∧
    (240 : ℚ) < 241 ∧ ¬ (300 : ℚ) ≤ 1145/4 ∧
    predict_cut_locationCp projTest [⟨1, 300⟩, ⟨2, 300⟩, ⟨3, 300⟩]
      [⟨1, 0, 0⟩, ⟨2, 300, 0⟩, ⟨3, 600, 0⟩] 240 1 = .ok (300, 0) ∧
    predict_cut_locationCp projTest [⟨1, 300⟩, ⟨2, 300⟩, ⟨3, 300⟩]
      [⟨1, 0, 0⟩, ⟨2, 300, 0⟩, ⟨3, 600, 0⟩] 241 1 = .ok (1145/4, 0) := by
  refine ⟨?_, ?_, by norm_num, by norm_num, ?_, ?_⟩
  · norm_num [alongPos, alongPosLoop]
  · norm_num [alongPos, alongPosLoop]
  · norm_num [predict_cut_locationCp, predictLoopCp, lookupPole, projTest]
  · norm_num [predict_cut_locationCp, predictLoopCp, lookupPole, projTest]

/-- C9 amended: the along-chain position of the prediction is non-decreasing
in the OTDR distance as long as the two distances select the same first
entry; the counterexample shows it can decrease when the selected entry
advances across a slack boundary. -/
theorem c9_amended_monotone_within_span (chain : List PoleEntry)
    (d1 d2 sf : ℚ) (i : ℕ) (h12 : d1 ≤ d2) (hi : i < chain.length)
    (h1fst : ∀ j, j < i → ¬ cutHit cfgCp d1 sf chain j)
    (h1hit : cutHit cfgCp d1 sf chain i)
    (h2fst : ∀ j, j < i → ¬ cutHit cfgCp d2 sf chain j)
    (h2hit : cutHit cfgCp d2 sf chain i) :
    ∃ p1 p2,
      alongPos chain d1 sf = .ok p1 ∧ alongPos chain d2 sf = .ok p2 ∧
      p1 ≤ p2 := by
  have e1 : alongPos chain d1 sf =
      alongPosLoop sf (d1 * cfgCp.overread) 0 chain := rfl
  have e2 : alongPos chain d2 sf =
      alongPosLoop sf (d2 * cfgCp.overread) 0 chain := rfl
  rw [e1, e2,
    alongPosLoop_hit sf (d1 * cfgCp.overread) chain i 0 hi h1fst h1hit,
    alongPosLoop_hit sf (d2 * cfgCp.overread) chain i 0 hi h2fst h2hit]
  by_cases hlast : chain.drop (i + 1) = []
  · rw [if_pos hlast, if_pos hlast]
    exact ⟨_, _, rfl, rfl, le_refl _⟩
  · rw [if_neg hlast, if_neg hlast]
    refine ⟨_, _, rfl, rfl, ?_⟩
    unfold offDws
    have hov : (0 : ℚ) ≤ cfgCp.overread := by
      rw [cfgCp_overread]
      norm_num
    have hm := mul_le_mul_of_nonneg_right h12 hov
    linarith

/-- Witness for C9 amended: both 100 m and 150 m select the first span. -/
theorem c9_amended_witness :
    ∃ p1 p2,
      alongPos [⟨1, 300⟩, ⟨2, 300⟩, ⟨3, 300⟩] 100 1 = .ok p1 ∧
      alongPos [⟨1, 300⟩, ⟨2, 300⟩, ⟨3, 300⟩] 150 1 = .ok p2 ∧
      p1 ≤ p2 :=
  c9_amended_monotone_within_span [⟨1, 300⟩, ⟨2, 300⟩, ⟨3, 300⟩] 100 150 1 0
    (by norm_num) (by norm_num)
    (fun j hj => absurd hj (Nat.not_lt_zero j))
    (by norm_num [cutHit, offHit, accDist])
    (fun j hj => absurd hj (Nat.not_lt_zero j))
    (by norm_num [cutHit, offHit, accDist])

/-- C10 counterexample: with their hard-coded constants the two variants
disagree on the same input; the `src/cpapp.py` variant raises the
out-of-range error where the `src/unnamed/part_000` variant returns the
pole's coordinates. -/
theorem c10_counterexample :
    predict_cut_locationCp projTest [⟨1, 1100⟩] [⟨1, 10, 100⟩] 1000 1 =
      .error .outOfRange ∧
    predict_cut_locationPart projTest [⟨1, 1100⟩] [⟨1, 10, 100⟩] 1000 1 =
      .ok (10, 100) ∧
    (Except.error PredictError.outOfRange : Except PredictError Coords) ≠
      .ok (10, 100) := by
  refine ⟨?_, ?_, by simp⟩
  · norm_num [predict_cut_locationCp, predictLoopCp, lookupPole, projTest]
  · norm_num [predict_cut_locationPart, predictLoopPart, lookupPole, projTest]

/-- C10 amended: the two variants implement one and the same traversal
algorithm, each instantiated at its own calibration constants (1.25/400/15
versus 1.05/500/25); with those differing constants they are not
extensionally equal. -/
theorem c10_amended_same_algorithm (proj : Coords → Coords → ℚ → Coords)
    (chain : List PoleEntry) (poles_data : List PoleRow) (d sf : ℚ) :
    predict_cut_locationCp proj chain poles_data d sf =
      predict_cut_locationG cfgCp proj chain poles_data d sf ∧
    predict_cut_locationPart proj chain poles_data d sf =
      predict_cut_locationG cfgPart proj chain poles_data d sf :=
  ⟨predictCp_eq_generic proj chain poles_data d sf,
    predictPart_eq_generic proj chain poles_data d sf⟩
